import Mathlib

/-!
# Verification of the content-vector delta pipeline

A shallow embedding of the delta-tracking synchronization pipeline
(`src/scraper/scraper.py`, `src/scraper/converter.py`, `src/scraper/fetcher.py`,
`src/uploader/file_handlers.py`, `src/uploader/upload.py`) together with proofs
of the specified properties.

Modelling conventions:
* External library calls (hashlib's SHA-256, BeautifulSoup cleaning, markdownify
  rendering, the OpenAI vector-store client, `os.path.exists`, `requests.get`)
  are parameters of the embedded functions: a hash function `String → String`,
  `Except`-valued operation oracles for the fallible calls, and a
  `String → Bool` filesystem-existence oracle.  The embedded control flow around
  them is translated from the source.
* Python exceptions are modelled with `Except` results of the oracles; a
  `try/except` block that returns a fallback value becomes a `match` on the
  oracle result.  File writes that can raise are modelled by two booleans
  (`mdOk`, `metaOk`), one per `open(...).write` in `save_article_as_markdown`.
* Python dicts keyed by article id become association lists (`Ledger`), with
  Python's in-place `d[k] = v` modelled by `ledgerInsert` (update in place or
  append).  Python `set`s of ids become duplicate-free lists in insertion order.
* `re` character classes `\w`/`\s` are modelled on their ASCII fragment
  (`Char.isAlphanum`, underscore; the six ASCII whitespace characters), which is
  exact for all inputs used in the theorems below.
-/

namespace ContentPipeline

/-- ASCII fragment of Python's regex class `\w`: alphanumeric or underscore. -/
def isWordChar (c : Char) : Bool := c.isAlphanum || c == '_'

/-- ASCII fragment of Python's regex class `\s`. -/
def isSpaceChar (c : Char) : Bool :=
  c == ' ' || c == '\t' || c == '\n' || c == '\r' || c == '\x0b' || c == '\x0c'

/-- One step of `re.sub(r'[^\w\s-]', '-', title)` (scraper.py line 90): each
character matching the class `[^\w\s-]` is replaced, individually, by `-`. -/
def punctToDash (c : Char) : Char :=
  if !isWordChar c && !isSpaceChar c && c != '-' then '-' else c

/-- `re.sub(r'\s+', '-', s)` (scraper.py line 91): each maximal run of
whitespace characters is replaced by a single dash.  The boolean flag records
whether the previous character was part of a whitespace run. -/
def collapseWsGo : Bool → List Char → List Char
  | _, [] => []
  | inRun, c :: rest =>
    if isSpaceChar c then
      (if inRun then [] else ['-']) ++ collapseWsGo true rest
    else c :: collapseWsGo false rest

/-- Python `s.strip('-')`: remove all leading and all trailing dashes. -/
def stripDashes (l : List Char) : List Char :=
  ((l.dropWhile (· == '-')).reverse.dropWhile (· == '-')).reverse

/-- The slug computation of `save_article_as_markdown` (scraper.py lines
89-92): `re.sub(r'[^\w\s-]', '-', title)`, then `re.sub(r'\s+', '-', ·)`, then
`.strip('-')`. -/
def clean_title_of (title : String) : String :=
  ⟨stripDashes (collapseWsGo false (title.data.map punctToDash))⟩

/-- A fetched article: the Python dict with the keys the pipeline reads via
`article.get(...)`; every key may be absent (`none`). -/
structure Article where
  id : Option Nat
  title : Option String
  body : Option String
  html_url : Option String
  updated_at : Option String
deriving Repr, DecidableEq, Inhabited

/-- A value of the tracked-metadata dict (the fingerprint ledger).
`clean_title` is read back with `.get('clean_title', 'No-Title')`
(file_handlers.py line 23), so it is modelled as optional. -/
structure LedgerEntry where
  clean_title : Option String
  content_hash : String
  last_modified : String
deriving Repr, DecidableEq

/-- The tracked-metadata dict `article_id_str -> entry`, as an association
list without duplicate keys (Python dict semantics for the operations used). -/
abbrev Ledger := List (String × LedgerEntry)

/-- Python dict lookup `tracked[key]` / `key in tracked`. -/
def ledgerFind : Ledger → String → Option LedgerEntry
  | [], _ => none
  | (k, v) :: rest, key => if k = key then some v else ledgerFind rest key

/-- Python dict assignment `tracked[key] = v`: overwrite in place if the key is
present, otherwise append. -/
def ledgerInsert : Ledger → String → LedgerEntry → Ledger
  | [], key, v => [(key, v)]
  | (k, w) :: rest, key, v =>
    if k = key then (key, v) :: rest else (k, w) :: ledgerInsert rest key v

/-- Python `str.strip()` (no argument): remove all leading and all trailing
whitespace characters. -/
def pyStrip (s : String) : String :=
  ⟨((s.data.dropWhile isSpaceChar).reverse.dropWhile isSpaceChar).reverse⟩

/-- `clean_html` (converter.py lines 8-46): the BeautifulSoup-based cleaning is
the oracle `cleanOp`; the surrounding `try/except` returns the original HTML
when cleaning raises. -/
def clean_html (cleanOp : String → Except String String) (html : String) : String :=
  match cleanOp html with
  | .ok cleaned => cleaned
  | .error _ => html

/-- `convert_article_to_markdown` (converter.py lines 48-97): clean the body,
render it to Markdown (`mdOp` is the markdownify call, the only fallible step;
the rendered text is then stripped), and prepend the title heading and
provenance link.  The `except` branch returns the degraded document. -/
def convert_article_to_markdown (cleanOp mdOp : String → Except String String)
    (article : Article) : String :=
  let title := article.title.getD "No Title"
  let body := article.body.getD ""
  let html_url := article.html_url.getD ""
  let cleaned_html := clean_html cleanOp body
  match mdOp cleaned_html with
  | .ok markdown_content =>
    "# " ++ title ++ "\n\n" ++ "[View Original Article](" ++ html_url ++ ")\n\n" ++
      pyStrip markdown_content
  | .error e => "# " ++ title ++ "\n\nConversion failed: " ++ e

/-- Classification outcome of one article (the `status` variable of
`save_article_as_markdown`). -/
inductive SaveStatus where
  | new
  | updated
  | skipped
deriving Repr, DecidableEq

/-- The classification step of `save_article_as_markdown` (scraper.py lines
94-98): `status = 'skipped'`; `if article_id_str not in tracked_metadata:
status = 'new'`; `elif tracked_metadata[article_id_str]['content_hash'] !=
content_hash: status = 'updated'`. -/
def classify (content_hash article_id_str : String) (tracked : Ledger) : SaveStatus :=
  match ledgerFind tracked article_id_str with
  | none => .new
  | some entry => if entry.content_hash ≠ content_hash then .updated else .skipped

/-- The sidecar `metadata.json` contents (scraper.py lines 113-119). -/
structure ArticleMetadata where
  id : Nat
  title : String
  html_url : String
  content_hash : String
  last_modified : String
deriving Repr, DecidableEq

/-- A file write performed by `save_article_as_markdown`. -/
inductive FileWrite where
  | markdownFile (path content : String)
  | metadataFile (path : String) (meta : ArticleMetadata)
deriving Repr, DecidableEq

/-- The return value `(saved, status, article_id)` of
`save_article_as_markdown`, together with the tracked-metadata dict after the
call (Python mutates it in place) and the file writes performed. -/
structure SaveOutcome where
  saved : Bool
  status : SaveStatus
  returnedId : Option String
  tracked : Ledger
  writes : List FileWrite
deriving Repr, DecidableEq

/-- `save_article_as_markdown` (scraper.py lines 61-139).  `hashFn` is
`calculate_content_hash` (hashlib SHA-256, external); `now` is
`datetime.utcnow().isoformat()`; `mdOk` and `metaOk` tell whether the Markdown
write and the metadata write succeed (a failed write raises, landing in the
`except` branch that returns `(False, 'skipped', None)` without touching the
tracked metadata). -/
def save_article_as_markdown (hashFn : String → String)
    (cleanOp mdOp : String → Except String String) (now : String)
    (mdOk metaOk : Bool) (article : Article) (tracked : Ledger) : SaveOutcome :=
  match article.id with
  | none => ⟨false, .skipped, none, tracked, []⟩
  | some article_id =>
    let content := article.body.getD ""
    let content_hash := hashFn content
    let article_id_str := toString article_id
    let last_modified := article.updated_at.getD now
    let title := article.title.getD "No Title"
    let clean_title := clean_title_of title
    let status := classify content_hash article_id_str tracked
    if status = .skipped then ⟨false, .skipped, none, tracked, []⟩
    else
      let markdown_content := convert_article_to_markdown cleanOp mdOp article
      let markdown_path := "articles/" ++ article_id_str ++ "/" ++ clean_title ++ ".md"
      if mdOk = false then ⟨false, .skipped, none, tracked, []⟩
      else
        let metadata_path := "articles/" ++ article_id_str ++ "/metadata.json"
        if metaOk = false then
          ⟨false, .skipped, none, tracked, [.markdownFile markdown_path markdown_content]⟩
        else
          ⟨true, status, some article_id_str,
            ledgerInsert tracked article_id_str
              ⟨some clean_title, content_hash, last_modified⟩,
            [.markdownFile markdown_path markdown_content,
             .metadataFile metadata_path
               ⟨article_id, title, article.html_url.getD "", content_hash, last_modified⟩]⟩

/-- The classification set `categorized_articles` of `scraper.main`: the two
Python sets of ids, as duplicate-free lists in insertion order. -/
structure Categorized where
  new_articles : List String
  updated_articles : List String
deriving Repr, DecidableEq

/-- Python `set.add`: append if not already present. -/
def addId (l : List String) (i : String) : List String :=
  if i ∈ l then l else l ++ [i]

/-- State threaded through the processing loop of `scraper.main`
(scraper.py lines 167-183): counters, the classification set, the
tracked-metadata dict, and the file writes performed so far. -/
structure ScrapeState where
  categorized : Categorized
  tracked : Ledger
  new_count : Nat
  updated_count : Nat
  skipped_count : Nat
  writes : List FileWrite
deriving Repr, DecidableEq

/-- One iteration of the `for article in articles` loop of `scraper.main`
(scraper.py lines 176-183): call `save_article_as_markdown` on the current
tracked metadata, then sort the result into the counters and the
classification set. -/
def stepArticle (hashFn : String → String)
    (cleanOp mdOp : String → Except String String) (now : String)
    (mdOk metaOk : Bool) (article : Article) (st : ScrapeState) : ScrapeState :=
  let r := save_article_as_markdown hashFn cleanOp mdOp now mdOk metaOk article st.tracked
  let st1 : ScrapeState := { st with tracked := r.tracked, writes := st.writes ++ r.writes }
  if r.saved then
    match r.status, r.returnedId with
    | .new, some i =>
      { st1 with new_count := st1.new_count + 1,
                 categorized := { st1.categorized with
                   new_articles := addId st1.categorized.new_articles i } }
    | .updated, some i =>
      { st1 with updated_count := st1.updated_count + 1,
                 categorized := { st1.categorized with
                   updated_articles := addId st1.categorized.updated_articles i } }
    | _, _ => st1
  else { st1 with skipped_count := st1.skipped_count + 1 }

/-- The whole `for article in articles` loop of `scraper.main`.  `fs` gives
the (mdOk, metaOk) file-write outcomes for the article at each position `n`. -/
def processArticles (hashFn : String → String)
    (cleanOp mdOp : String → Except String String) (now : String)
    (fs : Nat → Bool × Bool) : Nat → List Article → ScrapeState → ScrapeState
  | _, [], st => st
  | n, article :: rest, st =>
    processArticles hashFn cleanOp mdOp now fs (n + 1) rest
      (stepArticle hashFn cleanOp mdOp now (fs n).1 (fs n).2 article st)

/-- The loop state at the start of `scraper.main`, with the loaded ledger. -/
def initState (tracked : Ledger) : ScrapeState :=
  ⟨⟨[], []⟩, tracked, 0, 0, 0, []⟩

/-- One scraper run over a fetched article list, starting from a loaded
tracked-metadata dict (`scraper.main`, lines 160-186). -/
def scraperRun (hashFn : String → String)
    (cleanOp mdOp : String → Except String String) (now : String)
    (fs : Nat → Bool × Bool) (articles : List Article) (tracked : Ledger) : ScrapeState :=
  processArticles hashFn cleanOp mdOp now fs 0 articles (initState tracked)

/-- `fetch_articles` pagination loop (fetcher.py lines 31-68).  The remote is a
list of page results: `.ok arts` is a page whose JSON parsed to `arts` and that
carries a `next_page` link exactly when more elements follow; `.error` is a
request failure, which breaks the loop.  Returns the accumulated articles and
the list of `article_count` values at which `time.sleep` was executed (the
check is `article_count >= 20 and article_count % 20 == 0`, once per page). -/
def fetch_go : List (Except Unit (List Article)) → Nat → List Article × List Nat
  | [], _ => ([], [])
  | .error _ :: _, _ => ([], [])
  | .ok page_articles :: rest, article_count =>
    let article_count2 := article_count + page_articles.length
    let tail := fetch_go rest article_count2
    (page_articles ++ tail.1,
      if 20 ≤ article_count2 && article_count2 % 20 == 0
      then article_count2 :: tail.2 else tail.2)

/-- `fetch_articles` with the initial `article_count = 0`. -/
def fetch_articles (pages : List (Except Unit (List Article))) : List Article × List Nat :=
  fetch_go pages 0

/-- The number of articles on each successfully fetched page, up to the first
request failure (used to characterize the sleep points). -/
def okPageLens : List (Except Unit (List Article)) → List Nat
  | [] => []
  | .error _ :: _ => []
  | .ok page_articles :: rest => page_articles.length :: okPageLens rest

/-- `get_article_file_path` (file_handlers.py lines 8-25): empty string when
the id has no ledger entry, else `articles/<id>/<clean_title>.md`. -/
def get_article_file_path (article_id : String) (tracked : Ledger) : String :=
  match ledgerFind tracked article_id with
  | none => ""
  | some entry => "articles/" ++ article_id ++ "/" ++ entry.clean_title.getD "No-Title" ++ ".md"

/-- `categorized_articles["new_articles"] | categorized_articles["updated_articles"]`
(file_handlers.py line 39), as a duplicate-free list. -/
def idUnion (c : Categorized) : List String :=
  c.new_articles ++ c.updated_articles.filter (fun i => i ∉ c.new_articles)

/-- `validate_article_file_paths` (file_handlers.py lines 27-71): resolve every
id of the classification set to a path and split into `(valid_paths,
missing_paths)` by `os.path.exists` (the `fileExists` oracle). -/
def validate_article_file_paths (fileExists : String → Bool)
    (categorized : Categorized) (tracked : Ledger) : List String × List String :=
  let all_article_ids := idUnion categorized
  if all_article_ids = [] then ([], [])
  else
    let file_paths := all_article_ids.map (fun i => get_article_file_path i tracked)
    (file_paths.filter (fun p => fileExists p), file_paths.filter (fun p => !fileExists p))

/-- The slice starts `range(0, len(valid_paths), batch_size)` of the upload
loop (upload.py line 65): `i * batch_size` for every such multiple below the
length, of which there are `(n + batch_size - 1) / batch_size`. -/
def sliceStarts (n batch_size : Nat) : List Nat :=
  (List.range ((n + batch_size - 1) / batch_size)).map (· * batch_size)

/-- The successive batches `valid_paths[batch_num : batch_num + batch_size]`
taken by the upload loop. -/
def upload_batches (valid_paths : List String) (batch_size : Nat) : List (List String) :=
  (sliceStarts valid_paths.length batch_size).map
    (fun i => (valid_paths.drop i).take batch_size)

/-- The run totals of `upload_delta_articles_in_batches`, plus the trace of
batches for which the bulk submission call was made (`attempted`). -/
structure UploadRun where
  attempted : List (List String)
  successful_batches : Nat
  failed_batches : Nat
  total_files_embedded : Nat
  total_chunks_embedded : Nat
deriving Repr, DecidableEq

/-- The zero totals every early return of the upload function reports. -/
def emptyRun : UploadRun := ⟨[], 0, 0, 0, 0⟩

/-- The `for batch_num in range(...)` loop body of
`upload_delta_articles_in_batches` (upload.py lines 65-101): submit each batch
(`uploadOp`, the bulk upload-and-poll call, returns the completed chunk count
or raises), count it as successful or failed, and continue either way. -/
def processBatches (uploadOp : List String → Except Unit Nat) :
    List (List String) → UploadRun → UploadRun
  | [], s => s
  | batch_paths :: rest, s =>
    match uploadOp batch_paths with
    | .ok completed =>
      processBatches uploadOp rest
        { s with attempted := s.attempted ++ [batch_paths],
                 successful_batches := s.successful_batches + 1,
                 total_files_embedded := s.total_files_embedded + batch_paths.length,
                 total_chunks_embedded := s.total_chunks_embedded + completed }
    | .error _ =>
      processBatches uploadOp rest
        { s with attempted := s.attempted ++ [batch_paths],
                 failed_batches := s.failed_batches + 1 }

/-- `upload_delta_articles_in_batches` (upload.py lines 10-124).  `ensure` is
`ensure_vector_store_exists` (returns the store id or raises, which the outer
`except` catches); early returns: no articles, index-resolution failure,
missing files, no valid files.  Otherwise the batch loop runs to completion. -/
def upload_delta_articles_in_batches (ensure : Except Unit String)
    (fileExists : String → Bool) (uploadOp : String → List String → Except Unit Nat)
    (categorized : Categorized) (tracked : Ledger) (batch_size : Nat) : UploadRun :=
  let new_count := categorized.new_articles.length
  let updated_count := categorized.updated_articles.length
  let total_articles := new_count + updated_count
  if total_articles = 0 then emptyRun
  else
    match ensure with
    | .error _ => emptyRun
    | .ok vector_store_id =>
      let vm := validate_article_file_paths fileExists categorized tracked
      if vm.2.isEmpty = false then emptyRun
      else if vm.1.isEmpty then emptyRun
      else processBatches (uploadOp vector_store_id) (upload_batches vm.1 batch_size) emptyRun


/-- Whether the bulk submission of a batch succeeds (the `try` of the batch
loop completes) for a given upload operation. -/
def uploadOk (uploadOp : List String → Except Unit Nat) (batch_paths : List String) : Bool :=
  match uploadOp batch_paths with
  | .ok _ => true
  | .error _ => false

/-- Whether a character list contains two adjacent separator dashes. -/
def hasDoubleSep : List Char → Bool
  | [] => false
  | a :: rest =>
    match rest with
    | [] => false
    | b :: _ => (a == '-' && b == '-') || hasDoubleSep rest

theorem ledgerFind_ledgerInsert_self (l : Ledger) (k : String) (v : LedgerEntry) :
    ledgerFind (ledgerInsert l k v) k = some v := by
  induction l with
  | nil => simp [ledgerInsert, ledgerFind]
  | cons p rest ih =>
    obtain ⟨k2, w⟩ := p
    by_cases h : k2 = k <;> simp [ledgerInsert, ledgerFind, h, ih]

theorem ledgerFind_ledgerInsert_ne (l : Ledger) (k k2 : String) (v : LedgerEntry)
    (h : k ≠ k2) : ledgerFind (ledgerInsert l k v) k2 = ledgerFind l k2 := by
  induction l with
  | nil => simp [ledgerInsert, ledgerFind, h]
  | cons p rest ih =>
    obtain ⟨k3, w⟩ := p
    by_cases h3 : k3 = k
    · simp [ledgerInsert, ledgerFind, h3, h]
    · simp [ledgerInsert, ledgerFind, h3, ih]

theorem save_of_id_none (hashFn : String → String)
    (cleanOp mdOp : String → Except String String) (now : String)
    (mdOk metaOk : Bool) (article : Article) (tracked : Ledger)
    (h : article.id = none) :
    save_article_as_markdown hashFn cleanOp mdOp now mdOk metaOk article tracked =
      ⟨false, .skipped, none, tracked, []⟩ := by
  simp [save_article_as_markdown, h]

theorem save_of_skipped (hashFn : String → String)
    (cleanOp mdOp : String → Except String String) (now : String)
    (mdOk metaOk : Bool) (article : Article) (tracked : Ledger) (i : Nat)
    (h : article.id = some i)
    (hc : classify (hashFn (article.body.getD "")) (toString i) tracked = .skipped) :
    save_article_as_markdown hashFn cleanOp mdOp now mdOk metaOk article tracked =
      ⟨false, .skipped, none, tracked, []⟩ := by
  simp [save_article_as_markdown, h, hc]

theorem save_of_write_failure (hashFn : String → String)
    (cleanOp mdOp : String → Except String String) (now : String)
    (mdOk metaOk : Bool) (article : Article) (tracked : Ledger) (i : Nat)
    (h : article.id = some i)
    (hc : classify (hashFn (article.body.getD "")) (toString i) tracked ≠ .skipped)
    (hw : mdOk = false ∨ metaOk = false) :
    (save_article_as_markdown hashFn cleanOp mdOp now mdOk metaOk article tracked).saved
        = false ∧
    (save_article_as_markdown hashFn cleanOp mdOp now mdOk metaOk article tracked).status
        = .skipped ∧
    (save_article_as_markdown hashFn cleanOp mdOp now mdOk metaOk article tracked).returnedId
        = none ∧
    (save_article_as_markdown hashFn cleanOp mdOp now mdOk metaOk article tracked).tracked
        = tracked := by
  rcases hw with hw | hw
  · subst hw
    cases metaOk <;> simp [save_article_as_markdown, h, hc]
  · subst hw
    cases mdOk <;> simp [save_article_as_markdown, h, hc]

theorem save_of_write_success (hashFn : String → String)
    (cleanOp mdOp : String → Except String String) (now : String)
    (article : Article) (tracked : Ledger) (i : Nat)
    (h : article.id = some i)
    (hc : classify (hashFn (article.body.getD "")) (toString i) tracked ≠ .skipped) :
    save_article_as_markdown hashFn cleanOp mdOp now true true article tracked =
      ⟨true, classify (hashFn (article.body.getD "")) (toString i) tracked,
        some (toString i),
        ledgerInsert tracked (toString i)
          ⟨some (clean_title_of (article.title.getD "No Title")),
           hashFn (article.body.getD ""), article.updated_at.getD now⟩,
        [.markdownFile
          ("articles/" ++ toString i ++ "/" ++
            clean_title_of (article.title.getD "No Title") ++ ".md")
          (convert_article_to_markdown cleanOp mdOp article),
         .metadataFile ("articles/" ++ toString i ++ "/metadata.json")
          ⟨i, article.title.getD "No Title", article.html_url.getD "",
           hashFn (article.body.getD ""), article.updated_at.getD now⟩]⟩ := by
  simp [save_article_as_markdown, h, hc]


/-- C1: classification yields exactly one outcome per document: an id absent
from the ledger is classified `new`; an id present with a stored hash differing
from the hash of the raw body is classified `updated`; an id present with an
equal hash is classified `skipped` (unchanged, no write, no ledger mutation);
and a document with no id is always skipped with no write and no ledger
mutation. -/
theorem classification_exactly_one_outcome (hashFn : String → String)
    (cleanOp mdOp : String → Except String String) (now : String)
    (mdOk metaOk : Bool) (article : Article) (tracked : Ledger) :
    (article.id = none →
      save_article_as_markdown hashFn cleanOp mdOp now mdOk metaOk article tracked =
        ⟨false, .skipped, none, tracked, []⟩) ∧
    (∀ i : Nat, article.id = some i →
      (ledgerFind tracked (toString i) = none →
        classify (hashFn (article.body.getD "")) (toString i) tracked = .new) ∧
      (∀ entry : LedgerEntry, ledgerFind tracked (toString i) = some entry →
        (entry.content_hash ≠ hashFn (article.body.getD "") →
          classify (hashFn (article.body.getD "")) (toString i) tracked = .updated) ∧
        (entry.content_hash = hashFn (article.body.getD "") →
          classify (hashFn (article.body.getD "")) (toString i) tracked = .skipped ∧
          save_article_as_markdown hashFn cleanOp mdOp now mdOk metaOk article tracked =
            ⟨false, .skipped, none, tracked, []⟩))) := by
  refine ⟨fun h => save_of_id_none hashFn cleanOp mdOp now mdOk metaOk article tracked h,
    fun i hid => ⟨fun hfind => by simp [classify, hfind], fun entry hfind => ⟨?_, ?_⟩⟩⟩
  · intro hne
    simp [classify, hfind, hne]
  · intro heq
    have hcl : classify (hashFn (article.body.getD "")) (toString i) tracked = .skipped := by
      simp [classify, hfind, heq]
    exact ⟨hcl, save_of_skipped hashFn cleanOp mdOp now mdOk metaOk article tracked i hid hcl⟩

/-- Witness for C1: a document without id is skipped untouched; id `7` absent
from an empty ledger is `new`; present with a different stored hash is
`updated`; present with the same hash is `skipped` and the save call leaves
everything unchanged. -/
theorem classification_exactly_one_outcome_witness :
    save_article_as_markdown (fun s => s) (fun s => .ok s) (fun s => .ok s) "t" true true
      ⟨none, none, none, none, none⟩ [] = ⟨false, .skipped, none, [], []⟩ ∧
    classify "b" "7" ([] : Ledger) = .new ∧
    classify "b" "7" [("7", ⟨some "T", "h0", "m"⟩)] = .updated ∧
    (classify "b" "7" [("7", ⟨some "T", "b", "m"⟩)] = .skipped ∧
      save_article_as_markdown (fun s => s) (fun s => .ok s) (fun s => .ok s) "t" true true
        ⟨some 7, none, some "b", none, none⟩ [("7", ⟨some "T", "b", "m"⟩)] =
        ⟨false, .skipped, none, [("7", ⟨some "T", "b", "m"⟩)], []⟩) :=
  ⟨(classification_exactly_one_outcome (fun s => s) (fun s => .ok s) (fun s => .ok s) "t"
      true true ⟨none, none, none, none, none⟩ []).1 rfl,
   ((classification_exactly_one_outcome (fun s => s) (fun s => .ok s) (fun s => .ok s) "t"
      true true ⟨some 7, none, some "b", none, none⟩ []).2 7 rfl).1 (by decide),
   (((classification_exactly_one_outcome (fun s => s) (fun s => .ok s) (fun s => .ok s) "t"
      true true ⟨some 7, none, some "b", none, none⟩
      [("7", ⟨some "T", "h0", "m"⟩)]).2 7 rfl).2 ⟨some "T", "h0", "m"⟩ (by decide)).1
      (by decide),
   (((classification_exactly_one_outcome (fun s => s) (fun s => .ok s) (fun s => .ok s) "t"
      true true ⟨some 7, none, some "b", none, none⟩
      [("7", ⟨some "T", "b", "m"⟩)]).2 7 rfl).2 ⟨some "T", "b", "m"⟩ (by decide)).2 rfl⟩

/-- C2: for a document classified `new` or `updated`, the in-memory ledger
entry for its id is written (with the new content hash, slug and last-modified
value) exactly when both the Markdown write and the metadata write succeed; if
either write raises, the call returns `(False, 'skipped', None)` and the ledger
is unchanged. -/
theorem ledger_updated_only_after_writes (hashFn : String → String)
    (cleanOp mdOp : String → Except String String) (now : String)
    (mdOk metaOk : Bool) (article : Article) (tracked : Ledger) (i : Nat)
    (hid : article.id = some i)
    (hc : classify (hashFn (article.body.getD "")) (toString i) tracked ≠ .skipped) :
    (mdOk = true → metaOk = true →
      save_article_as_markdown hashFn cleanOp mdOp now mdOk metaOk article tracked =
        ⟨true, classify (hashFn (article.body.getD "")) (toString i) tracked,
          some (toString i),
          ledgerInsert tracked (toString i)
            ⟨some (clean_title_of (article.title.getD "No Title")),
             hashFn (article.body.getD ""), article.updated_at.getD now⟩,
          [.markdownFile
            ("articles/" ++ toString i ++ "/" ++
              clean_title_of (article.title.getD "No Title") ++ ".md")
            (convert_article_to_markdown cleanOp mdOp article),
           .metadataFile ("articles/" ++ toString i ++ "/metadata.json")
            ⟨i, article.title.getD "No Title", article.html_url.getD "",
             hashFn (article.body.getD ""), article.updated_at.getD now⟩]⟩) ∧
    (mdOk = false ∨ metaOk = false →
      (save_article_as_markdown hashFn cleanOp mdOp now mdOk metaOk article tracked).saved
          = false ∧
      (save_article_as_markdown hashFn cleanOp mdOp now mdOk metaOk article tracked).status
          = .skipped ∧
      (save_article_as_markdown hashFn cleanOp mdOp now mdOk metaOk article tracked).returnedId
          = none ∧
      (save_article_as_markdown hashFn cleanOp mdOp now mdOk metaOk article tracked).tracked
          = tracked) := by
  constructor
  · intro h1 h2
    subst h1; subst h2
    exact save_of_write_success hashFn cleanOp mdOp now article tracked i hid hc
  · intro hw
    exact save_of_write_failure hashFn cleanOp mdOp now mdOk metaOk article tracked i hid hc hw

/-- Witness for C2: a `new` article with id `7`; with both writes succeeding
the ledger gains the entry after both files are written, and with the metadata
write failing the call reports a skip and the ledger stays empty. -/
theorem ledger_updated_only_after_writes_witness :
    (save_article_as_markdown (fun s => s) (fun s => .ok s) (fun s => .ok s) "t" true true
        ⟨some 7, some "T", some "b", some "u", some "m"⟩ [] =
      ⟨true, .new, some "7", [("7", ⟨some "T", "b", "m"⟩)],
        [.markdownFile "articles/7/T.md" "# T\n\n[View Original Article](u)\n\nb",
         .metadataFile "articles/7/metadata.json" ⟨7, "T", "u", "b", "m"⟩]⟩) ∧
    ((save_article_as_markdown (fun s => s) (fun s => .ok s) (fun s => .ok s) "t" true false
        ⟨some 7, some "T", some "b", some "u", some "m"⟩ []).saved = false ∧
      (save_article_as_markdown (fun s => s) (fun s => .ok s) (fun s => .ok s) "t" true false
        ⟨some 7, some "T", some "b", some "u", some "m"⟩ []).status = .skipped ∧
      (save_article_as_markdown (fun s => s) (fun s => .ok s) (fun s => .ok s) "t" true false
        ⟨some 7, some "T", some "b", some "u", some "m"⟩ []).returnedId = none ∧
      (save_article_as_markdown (fun s => s) (fun s => .ok s) (fun s => .ok s) "t" true false
        ⟨some 7, some "T", some "b", some "u", some "m"⟩ []).tracked = []) := by
  constructor
  · have h := (ledger_updated_only_after_writes (fun s => s) (fun s => .ok s) (fun s => .ok s)
      "t" true true ⟨some 7, some "T", some "b", some "u", some "m"⟩ [] 7 rfl
      (by decide)).1 rfl rfl
    exact h.trans (by decide)
  · exact (ledger_updated_only_after_writes (fun s => s) (fun s => .ok s) (fun s => .ok s)
      "t" true false ⟨some 7, some "T", some "b", some "u", some "m"⟩ [] 7 rfl
      (by decide)).2 (Or.inr rfl)

/-- C6: the normalizer is total — for every article and any behaviour of the
cleaning and rendering operations it returns a Markdown string that starts
with the document title as a level-1 heading, and when rendering fails it
returns exactly the degraded document with the explicit conversion-failed
marker instead of propagating the failure. -/
theorem normalizer_never_propagates (cleanOp mdOp : String → Except String String)
    (article : Article) :
    (∃ rest : String,
      convert_article_to_markdown cleanOp mdOp article =
        "# " ++ article.title.getD "No Title" ++ "\n\n" ++ rest) ∧
    (∀ e : String,
      mdOp (clean_html cleanOp (article.body.getD "")) = .error e →
      convert_article_to_markdown cleanOp mdOp article =
        "# " ++ article.title.getD "No Title" ++ "\n\nConversion failed: " ++ e) := by
  constructor
  · cases h : mdOp (clean_html cleanOp (article.body.getD "")) with
    | ok markdown_content =>
      refine ⟨"[View Original Article](" ++ article.html_url.getD "" ++ ")\n\n" ++
        pyStrip markdown_content, ?_⟩
      simp only [convert_article_to_markdown, h]
      simp only [String.append_assoc]
    | error e =>
      refine ⟨"Conversion failed: " ++ e, ?_⟩
      simp only [convert_article_to_markdown, h]
      have hsplit : ("\n\nConversion failed: " : String) = "\n\n" ++ "Conversion failed: " := by
        decide
      rw [hsplit]
      simp only [String.append_assoc]
  · intro e he
    simp only [convert_article_to_markdown, he]

/-- Witness for C6: an article whose rendering step raises is converted to the
degraded document `# T` followed by the conversion-failed marker. -/
theorem normalizer_never_propagates_witness :
    convert_article_to_markdown (fun s => .ok s) (fun _ => .error "boom")
      ⟨some 7, some "T", some "<p>b</p>", some "u", some "m"⟩ =
      "# " ++ "T" ++ "\n\nConversion failed: " ++ "boom" :=
  (normalizer_never_propagates (fun s => .ok s) (fun _ => .error "boom")
    ⟨some 7, some "T", some "<p>b</p>", some "u", some "m"⟩).2 "boom" rfl


theorem sliceStarts_zero (batch_size : Nat) : sliceStarts 0 batch_size = [] := by
  unfold sliceStarts
  have hz : (0 + batch_size - 1) / batch_size = 0 := by
    rcases Nat.eq_zero_or_pos batch_size with h | h
    · subst h; rfl
    · exact Nat.div_eq_of_lt (by omega)
  rw [hz]
  rfl

theorem upload_batches_nil (batch_size : Nat) : upload_batches [] batch_size = [] := by
  simp [upload_batches, sliceStarts_zero]

theorem ceil_div_succ (n bs : Nat) (hB : 0 < bs) (hn : 0 < n) :
    (n + bs - 1) / bs = (n - bs + bs - 1) / bs + 1 := by
  have e1 : n + bs - 1 = (n - 1) + bs := by omega
  rw [e1, Nat.add_div_right _ hB]
  rcases le_or_lt n bs with h | h
  · have e2 : n - bs = 0 := by omega
    rw [e2]
    have e3 : (0 + bs - 1) / bs = 0 := Nat.div_eq_of_lt (by omega)
    have e4 : (n - 1) / bs = 0 := Nat.div_eq_of_lt (by omega)
    rw [e3, e4]
  · have e2 : n - bs + bs - 1 = (n - bs - 1) + bs := by omega
    rw [e2, Nat.add_div_right _ hB]
    have e3 : n - 1 = (n - 1 - bs) + bs := by omega
    rw [e3, Nat.add_div_right _ hB]
    have e4 : n - 1 - bs = n - bs - 1 := by omega
    rw [e4]

theorem upload_batches_cons (valid_paths : List String) (batch_size : Nat)
    (hB : 0 < batch_size) (hne : valid_paths ≠ []) :
    upload_batches valid_paths batch_size =
      valid_paths.take batch_size ::
        upload_batches (valid_paths.drop batch_size) batch_size := by
  have hn : 0 < valid_paths.length := List.length_pos.mpr hne
  unfold upload_batches sliceStarts
  rw [List.length_drop]
  rw [ceil_div_succ valid_paths.length batch_size hB hn]
  rw [List.range_succ_eq_map]
  simp only [List.map_cons, List.map_map, Nat.zero_mul, List.drop_zero]
  congr 1
  apply List.map_congr_left
  intro j _
  simp only [Function.comp_apply]
  rw [List.drop_drop]
  congr 1
  simp [Nat.succ_eq_add_one]
  ring_nf

theorem upload_batches_flatten (batch_size : Nat) (hB : 0 < batch_size)
    (valid_paths : List String) :
    (upload_batches valid_paths batch_size).flatten = valid_paths := by
  have H : ∀ n (paths : List String), paths.length = n →
      (upload_batches paths batch_size).flatten = paths := by
    intro n
    induction n using Nat.strong_induction_on with
    | _ n ih =>
      intro paths hlen
      rcases eq_or_ne paths [] with rfl | hne
      · simp [upload_batches_nil]
      · have hp : 0 < paths.length := List.length_pos.mpr hne
        rw [upload_batches_cons paths batch_size hB hne, List.flatten_cons,
          ih (paths.drop batch_size).length (by rw [List.length_drop]; omega)
            (paths.drop batch_size) rfl]
        exact List.take_append_drop _ _
  exact H valid_paths.length valid_paths rfl

theorem upload_batches_length (valid_paths : List String) (batch_size : Nat) :
    (upload_batches valid_paths batch_size).length =
      (valid_paths.length + batch_size - 1) / batch_size := by
  simp [upload_batches, sliceStarts]


/-- C3: for N validated paths and batch size B > 0 the upload loop produces
exactly `(N + B - 1) / B = ceil(N/B)` batches (the bounds `N ≤ B·k < N + B`
pin this down as the ceiling), every batch except possibly the last has
exactly B paths, and concatenating the batches in submission order gives back
the validated-path list. -/
theorem batch_partitioning (valid_paths : List String) (batch_size : Nat)
    (hB : 0 < batch_size) :
    (upload_batches valid_paths batch_size).length =
      (valid_paths.length + batch_size - 1) / batch_size ∧
    valid_paths.length ≤ batch_size * (upload_batches valid_paths batch_size).length ∧
    batch_size * (upload_batches valid_paths batch_size).length <
      valid_paths.length + batch_size ∧
    (∀ i, ∀ h : i + 1 < (upload_batches valid_paths batch_size).length,
      ((upload_batches valid_paths batch_size).get ⟨i, Nat.lt_of_succ_lt h⟩).length
        = batch_size) ∧
    (upload_batches valid_paths batch_size).flatten = valid_paths := by
  refine ⟨upload_batches_length valid_paths batch_size, ?_, ?_, ?_,
    upload_batches_flatten batch_size hB valid_paths⟩
  · rw [upload_batches_length valid_paths batch_size]
    have h1 := Nat.div_add_mod (valid_paths.length + batch_size - 1) batch_size
    have h2 : (valid_paths.length + batch_size - 1) % batch_size < batch_size :=
      Nat.mod_lt _ hB
    generalize hM : batch_size * ((valid_paths.length + batch_size - 1) / batch_size) = M
      at h1 ⊢
    omega
  · rw [upload_batches_length valid_paths batch_size]
    have h1 := Nat.div_add_mod (valid_paths.length + batch_size - 1) batch_size
    have h2 : (valid_paths.length + batch_size - 1) % batch_size < batch_size :=
      Nat.mod_lt _ hB
    generalize hM : batch_size * ((valid_paths.length + batch_size - 1) / batch_size) = M
      at h1 ⊢
    omega
  · intro i h
    have hk := upload_batches_length valid_paths batch_size
    rw [hk] at h
    have h1 : ((valid_paths.length + batch_size - 1) / batch_size) * batch_size ≤
        valid_paths.length + batch_size - 1 := Nat.div_mul_le_self _ _
    have h2 : (i + 2) * batch_size ≤
        ((valid_paths.length + batch_size - 1) / batch_size) * batch_size :=
      Nat.mul_le_mul_right _ (by omega)
    have h3 : (i + 2) * batch_size ≤ valid_paths.length + batch_size - 1 :=
      le_trans h2 h1
    have e : (i + 2) * batch_size = i * batch_size + batch_size + batch_size := by ring
    rw [e] at h3
    have hbs : batch_size ≤ valid_paths.length - i * batch_size := by
      generalize i * batch_size = M at h3 ⊢
      omega
    simp only [upload_batches, sliceStarts, List.get_eq_getElem, List.getElem_map,
      List.getElem_range, List.length_take, List.length_drop]
    generalize i * batch_size = M at hbs ⊢
    omega

/-- Witness for C3: five paths with batch size 2 produce the three batches
`[[a,b],[c,d],[e]]`. -/
theorem batch_partitioning_witness :
    0 < 2 ∧
    ((upload_batches ["a", "b", "c", "d", "e"] 2).length = (5 + 2 - 1) / 2 ∧
      (["a", "b", "c", "d", "e"] : List String).length ≤
        2 * (upload_batches ["a", "b", "c", "d", "e"] 2).length ∧
      2 * (upload_batches ["a", "b", "c", "d", "e"] 2).length <
        (["a", "b", "c", "d", "e"] : List String).length + 2 ∧
      (∀ i, ∀ h : i + 1 < (upload_batches ["a", "b", "c", "d", "e"] 2).length,
        ((upload_batches ["a", "b", "c", "d", "e"] 2).get ⟨i, Nat.lt_of_succ_lt h⟩).length
          = 2) ∧
      (upload_batches ["a", "b", "c", "d", "e"] 2).flatten = ["a", "b", "c", "d", "e"]) :=
  ⟨by decide, batch_partitioning ["a", "b", "c", "d", "e"] 2 (by decide)⟩


theorem validate_of_empty (fileExists : String → Bool) (categorized : Categorized)
    (tracked : Ledger) (h1 : categorized.new_articles = [])
    (h2 : categorized.updated_articles = []) :
    validate_article_file_paths fileExists categorized tracked = ([], []) := by
  simp [validate_article_file_paths, idUnion, h1, h2]

theorem upload_of_missing (ensure : Except Unit String) (fileExists : String → Bool)
    (uploadOp : String → List String → Except Unit Nat) (categorized : Categorized)
    (tracked : Ledger) (batch_size : Nat)
    (hmiss : (validate_article_file_paths fileExists categorized tracked).2 ≠ []) :
    upload_delta_articles_in_batches ensure fileExists uploadOp categorized tracked
      batch_size = emptyRun := by
  have htot : ¬ (categorized.new_articles.length + categorized.updated_articles.length = 0) := by
    intro h0
    apply hmiss
    rw [validate_of_empty fileExists categorized tracked
      (List.length_eq_zero.mp (by omega)) (List.length_eq_zero.mp (by omega))]
  simp only [upload_delta_articles_in_batches]
  rw [if_neg htot]
  cases ensure with
  | error e => rfl
  | ok vector_store_id =>
    have hne : (validate_article_file_paths fileExists categorized tracked).2.isEmpty
        = false := by
      cases hv : (validate_article_file_paths fileExists categorized tracked).2 with
      | nil => exact absurd hv hmiss
      | cons a l => simp
    simp [hne]

theorem processBatches_spec (uploadOp : List String → Except Unit Nat)
    (batches : List (List String)) (s : UploadRun) :
    (processBatches uploadOp batches s).attempted = s.attempted ++ batches ∧
    (processBatches uploadOp batches s).successful_batches =
      s.successful_batches + batches.countP (uploadOk uploadOp) ∧
    (processBatches uploadOp batches s).failed_batches =
      s.failed_batches + batches.countP (fun b => !uploadOk uploadOp b) := by
  induction batches generalizing s with
  | nil => simp [processBatches]
  | cons b rest ih =>
    cases hb : uploadOp b with
    | ok completed =>
      have hOk : uploadOk uploadOp b = true := by simp [uploadOk, hb]
      simp only [processBatches, hb]
      obtain ⟨ha, hs, hf⟩ := ih
        { s with attempted := s.attempted ++ [b],
                 successful_batches := s.successful_batches + 1,
                 total_files_embedded := s.total_files_embedded + b.length,
                 total_chunks_embedded := s.total_chunks_embedded + completed }
      refine ⟨?_, ?_, ?_⟩
      · rw [ha]; simp
      · rw [hs]; simp [List.countP_cons, hOk]; omega
      · rw [hf]; simp [List.countP_cons, hOk]
    | error e =>
      have hOk : uploadOk uploadOp b = false := by simp [uploadOk, hb]
      simp only [processBatches, hb]
      obtain ⟨ha, hs, hf⟩ := ih
        { s with attempted := s.attempted ++ [b],
                 failed_batches := s.failed_batches + 1 }
      refine ⟨?_, ?_, ?_⟩
      · rw [ha]; simp
      · rw [hs]; simp [List.countP_cons, hOk]
      · rw [hf]; simp [List.countP_cons, hOk]; omega



/-- C4: whenever path validation reports at least one missing file, the upload
stage returns the zero run: no batch is submitted and no file is uploaded,
even if other expected files exist. -/
theorem missing_file_aborts_upload (ensure : Except Unit String)
    (fileExists : String → Bool) (uploadOp : String → List String → Except Unit Nat)
    (categorized : Categorized) (tracked : Ledger) (batch_size : Nat)
    (hmiss : (validate_article_file_paths fileExists categorized tracked).2 ≠ []) :
    upload_delta_articles_in_batches ensure fileExists uploadOp categorized tracked
      batch_size = emptyRun :=
  upload_of_missing ensure fileExists uploadOp categorized tracked batch_size hmiss

/-- Witness for C4: five expected files of which one is missing; the run is
the zero run although four files exist. -/
theorem missing_file_aborts_upload_witness :
    (validate_article_file_paths (fun p => !(p == "articles/3/t3.md"))
        ⟨["1", "2", "3", "4", "5"], []⟩
        [("1", ⟨some "t1", "h", "m"⟩), ("2", ⟨some "t2", "h", "m"⟩),
         ("3", ⟨some "t3", "h", "m"⟩), ("4", ⟨some "t4", "h", "m"⟩),
         ("5", ⟨some "t5", "h", "m"⟩)]).2 ≠ [] ∧
    upload_delta_articles_in_batches (.ok "vs") (fun p => !(p == "articles/3/t3.md"))
      (fun _ _ => .ok 1) ⟨["1", "2", "3", "4", "5"], []⟩
      [("1", ⟨some "t1", "h", "m"⟩), ("2", ⟨some "t2", "h", "m"⟩),
       ("3", ⟨some "t3", "h", "m"⟩), ("4", ⟨some "t4", "h", "m"⟩),
       ("5", ⟨some "t5", "h", "m"⟩)] 10 = emptyRun :=
  ⟨by decide,
   missing_file_aborts_upload (.ok "vs") (fun p => !(p == "articles/3/t3.md"))
     (fun _ _ => .ok 1) ⟨["1", "2", "3", "4", "5"], []⟩
     [("1", ⟨some "t1", "h", "m"⟩), ("2", ⟨some "t2", "h", "m"⟩),
      ("3", ⟨some "t3", "h", "m"⟩), ("4", ⟨some "t4", "h", "m"⟩),
      ("5", ⟨some "t5", "h", "m"⟩)] 10 (by decide)⟩

/-- C5: when index resolution succeeds and validation reports no missing file,
every batch is attempted regardless of earlier failures: the bulk call is made
for the full batch list, the successful-batch count is the number of batches
whose submission succeeds and the failed-batch count the number that raise. -/
theorem batch_failure_isolated (fileExists : String → Bool)
    (uploadOp : String → List String → Except Unit Nat) (categorized : Categorized)
    (tracked : Ledger) (batch_size : Nat) (vector_store_id : String)
    (valid_paths : List String)
    (hval : validate_article_file_paths fileExists categorized tracked = (valid_paths, []))
    (hne : valid_paths ≠ []) :
    (upload_delta_articles_in_batches (.ok vector_store_id) fileExists uploadOp categorized
        tracked batch_size).attempted = upload_batches valid_paths batch_size ∧
    (upload_delta_articles_in_batches (.ok vector_store_id) fileExists uploadOp categorized
        tracked batch_size).successful_batches =
      (upload_batches valid_paths batch_size).countP (uploadOk (uploadOp vector_store_id)) ∧
    (upload_delta_articles_in_batches (.ok vector_store_id) fileExists uploadOp categorized
        tracked batch_size).failed_batches =
      (upload_batches valid_paths batch_size).countP
        (fun b => !uploadOk (uploadOp vector_store_id) b) := by
  have htot : ¬ (categorized.new_articles.length + categorized.updated_articles.length = 0) := by
    intro h0
    apply hne
    have hv := validate_of_empty fileExists categorized tracked
      (List.length_eq_zero.mp (by omega)) (List.length_eq_zero.mp (by omega))
    have := hval.symm.trans hv
    exact (Prod.mk.injEq _ _ _ _).mp this |>.1
  have hvne : valid_paths.isEmpty = false := by
    cases valid_paths with
    | nil => exact absurd rfl hne
    | cons a l => simp
  obtain ⟨ha, hs, hf⟩ := processBatches_spec (uploadOp vector_store_id)
    (upload_batches valid_paths batch_size) emptyRun
  have hred : upload_delta_articles_in_batches (.ok vector_store_id) fileExists uploadOp
      categorized tracked batch_size =
      processBatches (uploadOp vector_store_id) (upload_batches valid_paths batch_size)
        emptyRun := by
    simp only [upload_delta_articles_in_batches]
    rw [if_neg htot]
    simp [hval, hvne]
  rw [hred, ha, hs, hf]
  simp [emptyRun]



/-- Witness for C5: three one-file batches where the second submission fails;
all three batches are attempted and the counts are two successes, one
failure. -/
theorem batch_failure_isolated_witness :
    (validate_article_file_paths (fun _ => true) ⟨["1", "2", "3"], []⟩
        [("1", ⟨some "t1", "h", "m"⟩), ("2", ⟨some "t2", "h", "m"⟩),
         ("3", ⟨some "t3", "h", "m"⟩)] =
      (["articles/1/t1.md", "articles/2/t2.md", "articles/3/t3.md"], [])) ∧
    ((upload_delta_articles_in_batches (.ok "vs") (fun _ => true)
        (fun _ b => if b = ["articles/2/t2.md"] then .error () else .ok 1)
        ⟨["1", "2", "3"], []⟩
        [("1", ⟨some "t1", "h", "m"⟩), ("2", ⟨some "t2", "h", "m"⟩),
         ("3", ⟨some "t3", "h", "m"⟩)] 1).attempted =
      upload_batches ["articles/1/t1.md", "articles/2/t2.md", "articles/3/t3.md"] 1 ∧
    (upload_delta_articles_in_batches (.ok "vs") (fun _ => true)
        (fun _ b => if b = ["articles/2/t2.md"] then .error () else .ok 1)
        ⟨["1", "2", "3"], []⟩
        [("1", ⟨some "t1", "h", "m"⟩), ("2", ⟨some "t2", "h", "m"⟩),
         ("3", ⟨some "t3", "h", "m"⟩)] 1).successful_batches =
      (upload_batches ["articles/1/t1.md", "articles/2/t2.md", "articles/3/t3.md"] 1).countP
        (uploadOk ((fun _ b => if b = ["articles/2/t2.md"] then .error () else .ok 1) "vs")) ∧
    (upload_delta_articles_in_batches (.ok "vs") (fun _ => true)
        (fun _ b => if b = ["articles/2/t2.md"] then .error () else .ok 1)
        ⟨["1", "2", "3"], []⟩
        [("1", ⟨some "t1", "h", "m"⟩), ("2", ⟨some "t2", "h", "m"⟩),
         ("3", ⟨some "t3", "h", "m"⟩)] 1).failed_batches =
      (upload_batches ["articles/1/t1.md", "articles/2/t2.md", "articles/3/t3.md"] 1).countP
        (fun b => !uploadOk
          ((fun _ b => if b = ["articles/2/t2.md"] then .error () else .ok 1) "vs") b)) :=
  ⟨by decide,
   batch_failure_isolated (fun _ => true)
     (fun _ b => if b = ["articles/2/t2.md"] then .error () else .ok 1)
     ⟨["1", "2", "3"], []⟩
     [("1", ⟨some "t1", "h", "m"⟩), ("2", ⟨some "t2", "h", "m"⟩),
      ("3", ⟨some "t3", "h", "m"⟩)] 1 "vs"
     ["articles/1/t1.md", "articles/2/t2.md", "articles/3/t3.md"]
     (by decide) (by decide)⟩

/-- C10: an article id in the classification set without a ledger entry
resolves to the empty path, the empty path is counted missing (since
`os.path.exists("")` is false), and the whole upload run aborts with zero
batches submitted. -/
theorem untracked_id_aborts_upload (ensure : Except Unit String)
    (fileExists : String → Bool) (uploadOp : String → List String → Except Unit Nat)
    (categorized : Categorized) (tracked : Ledger) (batch_size : Nat)
    (article_id : String)
    (hmem : article_id ∈ categorized.new_articles ∨
      article_id ∈ categorized.updated_articles)
    (hfind : ledgerFind tracked article_id = none)
    (hempty : fileExists "" = false) :
    get_article_file_path article_id tracked = "" ∧
    "" ∈ (validate_article_file_paths fileExists categorized tracked).2 ∧
    upload_delta_articles_in_batches ensure fileExists uploadOp categorized tracked
      batch_size = emptyRun := by
  have hpath : get_article_file_path article_id tracked = "" := by
    simp [get_article_file_path, hfind]
  have hmemU : article_id ∈ idUnion categorized := by
    rcases hmem with h | h
    · exact List.mem_append_left _ h
    · by_cases hn : article_id ∈ categorized.new_articles
      · exact List.mem_append_left _ hn
      · exact List.mem_append_right _ (List.mem_filter.mpr ⟨h, by simp [hn]⟩)
  have hAllNe : idUnion categorized ≠ [] := List.ne_nil_of_mem hmemU
  have hmiss : "" ∈ (validate_article_file_paths fileExists categorized tracked).2 := by
    simp only [validate_article_file_paths]
    rw [if_neg hAllNe]
    apply List.mem_filter.mpr
    refine ⟨List.mem_map.mpr ⟨article_id, hmemU, hpath⟩, ?_⟩
    simp [hempty]
  exact ⟨hpath, hmiss,
    upload_of_missing ensure fileExists uploadOp categorized tracked batch_size
      (List.ne_nil_of_mem hmiss)⟩

/-- Witness for C10: id `9` is in the delta set but absent from the ledger;
its path is empty, counted missing, and the run is the zero run. -/
theorem untracked_id_aborts_upload_witness :
    ("9" ∈ (["9"] : List String) ∨ "9" ∈ ([] : List String)) ∧
    ((fun _ => false) "" = false) ∧
    (get_article_file_path "9" [] = "" ∧
      "" ∈ (validate_article_file_paths (fun _ => false) ⟨["9"], []⟩ []).2 ∧
      upload_delta_articles_in_batches (.ok "vs") (fun _ => false) (fun _ _ => .ok 1)
        ⟨["9"], []⟩ [] 10 = emptyRun) :=
  ⟨Or.inl (by decide), rfl,
   untracked_id_aborts_upload (.ok "vs") (fun _ => false) (fun _ _ => .ok 1)
     ⟨["9"], []⟩ [] 10 "9" (Or.inl (by decide)) rfl rfl⟩



theorem scanl_add_eq_cons (b : Nat) (l : List Nat) :
    List.scanl (· + ·) b l = b :: (List.scanl (· + ·) b l).tail := by
  cases l with
  | nil => simp
  | cons a t => simp [List.scanl_cons]

theorem fetch_go_sleeps (pages : List (Except Unit (List Article))) (c : Nat) :
    (fetch_go pages c).2 =
      ((okPageLens pages).scanl (· + ·) c).tail.filter
        (fun n => 20 ≤ n && n % 20 == 0) := by
  induction pages generalizing c with
  | nil => simp [fetch_go, okPageLens]
  | cons p rest ih =>
    cases p with
    | error e => simp [fetch_go, okPageLens]
    | ok page_articles =>
      simp only [fetch_go, okPageLens, List.scanl_cons, List.singleton_append, List.tail_cons]
      rw [ih (c + page_articles.length)]
      conv_rhs => rw [scanl_add_eq_cons (c + page_articles.length) (okPageLens rest)]
      rw [List.filter_cons]



/-- Counterexample to C7 as stated: the claim "a rate-limit pause occurs after
every 20 documents retrieved, for any page size" would force `total / 20`
pauses on every run; seven pages of three articles each retrieve 21 documents
(passing the multiple 20) yet the loop performs no pause at all, because the
per-page check `article_count % 20 == 0` never fires. -/
theorem rate_limit_pause_counterexample :
    ¬ (∀ pages : List (Except Unit (List Article)),
        (fetch_articles pages).2.length = (fetch_articles pages).1.length / 20) := by
  intro h
  exact absurd (h (List.replicate 7 (.ok (List.replicate 3 default)))) (by decide)

/-- C7 (amended): the cooperative pause is performed after a page fetch exactly
when the cumulative retrieved-document count at that page boundary is at least
20 and divisible by 20 — so page sizes dividing 20 pause after every 20
documents, while multiples of 20 crossed mid-page trigger no pause. -/
theorem rate_limit_pause_characterization (pages : List (Except Unit (List Article))) :
    (fetch_articles pages).2 =
      ((okPageLens pages).scanl (· + ·) 0).tail.filter
        (fun n => 20 ≤ n && n % 20 == 0) :=
  fetch_go_sleeps pages 0



theorem punctToDash_cases (d : Char) :
    punctToDash d = '-' ∨ isWordChar (punctToDash d) = true ∨
      isSpaceChar (punctToDash d) = true := by
  unfold punctToDash
  cases hw : isWordChar d with
  | true => simp [hw]
  | false =>
    cases hs : isSpaceChar d with
    | true => simp [hw, hs]
    | false =>
      cases hd : d == '-' with
      | true =>
        have hde : d = '-' := by simpa using hd
        simp [hw, hs, hd, hde]
      | false => simp [hw, hs, hd]

theorem mem_collapseWsGo (c : Char) (l : List Char) :
    ∀ b : Bool, c ∈ collapseWsGo b l → c = '-' ∨ (c ∈ l ∧ isSpaceChar c = false) := by
  induction l with
  | nil => intro b h; simp [collapseWsGo] at h
  | cons a rest ih =>
    intro b h
    simp only [collapseWsGo] at h
    by_cases ha : isSpaceChar a = true
    · rw [if_pos ha] at h
      rcases List.mem_append.mp h with h1 | h1
      · cases b with
        | true => simp at h1
        | false =>
          left
          simpa using h1
      · rcases ih true h1 with h2 | ⟨h2, h3⟩
        · exact Or.inl h2
        · exact Or.inr ⟨List.mem_cons_of_mem a h2, h3⟩
    · rw [if_neg ha] at h
      rcases List.mem_cons.mp h with rfl | h1
      · right
        exact ⟨List.mem_cons_self c rest, by simpa using ha⟩
      · rcases ih false h1 with h2 | ⟨h2, h3⟩
        · exact Or.inl h2
        · exact Or.inr ⟨List.mem_cons_of_mem a h2, h3⟩

theorem mem_of_mem_dropWhile (p : Char → Bool) (l : List Char) (c : Char)
    (h : c ∈ l.dropWhile p) : c ∈ l := by
  induction l with
  | nil => simp [List.dropWhile] at h
  | cons a rest ih =>
    by_cases hp : p a = true
    · rw [List.dropWhile_cons_of_pos hp] at h
      exact List.mem_cons_of_mem a (ih h)
    · rwa [List.dropWhile_cons_of_neg hp] at h

theorem mem_stripDashes (l : List Char) (c : Char) (h : c ∈ stripDashes l) : c ∈ l := by
  unfold stripDashes at h
  rw [List.mem_reverse] at h
  have h2 := mem_of_mem_dropWhile _ _ _ h
  rw [List.mem_reverse] at h2
  exact mem_of_mem_dropWhile _ _ _ h2

theorem head_dropWhile_false (p : Char → Bool) (l : List Char) (c : Char)
    (h : (l.dropWhile p).head? = some c) : p c = false := by
  induction l with
  | nil => simp [List.dropWhile] at h
  | cons a rest ih =>
    by_cases hp : p a = true
    · rw [List.dropWhile_cons_of_pos hp] at h
      exact ih h
    · rw [List.dropWhile_cons_of_neg hp] at h
      simp only [List.head?_cons, Option.some.injEq] at h
      subst h
      simpa using hp

theorem getLast_dropWhile (p : Char → Bool) (l : List Char)
    (h : l.dropWhile p ≠ []) : (l.dropWhile p).getLast? = l.getLast? := by
  induction l with
  | nil => simp [List.dropWhile] at h
  | cons a rest ih =>
    by_cases hp : p a = true
    · rw [List.dropWhile_cons_of_pos hp] at h ⊢
      rw [ih h]
      cases hr : rest with
      | nil => subst hr; simp [List.dropWhile] at h
      | cons b t => subst hr; rw [List.getLast?_cons_cons]
    · rw [List.dropWhile_cons_of_neg hp]

theorem stripDashes_head (l : List Char) (c : Char)
    (h : (stripDashes l).head? = some c) : (c == '-') = false := by
  unfold stripDashes at h
  rw [List.head?_reverse] at h
  have hne : List.dropWhile (· == '-') ((l.dropWhile (· == '-')).reverse) ≠ [] := by
    intro he
    rw [he] at h
    simp at h
  rw [getLast_dropWhile _ _ hne, List.getLast?_reverse] at h
  exact head_dropWhile_false (fun x => x == '-') l c h

theorem stripDashes_getLast (l : List Char) (c : Char)
    (h : (stripDashes l).getLast? = some c) : (c == '-') = false := by
  unfold stripDashes at h
  rw [List.getLast?_reverse] at h
  exact head_dropWhile_false (fun x => x == '-') ((l.dropWhile (· == '-')).reverse) c h

theorem collapseWsGo_no_space (l : List Char) (hl : ∀ c ∈ l, isSpaceChar c = false) :
    ∀ b : Bool, collapseWsGo b l = l := by
  induction l with
  | nil => intro b; rfl
  | cons a rest ih =>
    intro b
    have ha : isSpaceChar a = false := hl a (List.mem_cons_self a rest)
    simp only [collapseWsGo, ha, Bool.false_eq_true, if_false]
    rw [ih (fun c hc => hl c (List.mem_cons_of_mem a hc)) false]

theorem stripDashes_sandwich (mid : List Char) :
    stripDashes ('a' :: (mid ++ ['b'])) = 'a' :: (mid ++ ['b']) := by
  unfold stripDashes
  rw [List.dropWhile_cons_of_neg (by decide)]
  have hrev : ('a' :: (mid ++ ['b'])).reverse = 'b' :: (mid.reverse ++ ['a']) := by
    simp [List.reverse_cons, List.reverse_append]
  rw [hrev]
  rw [List.dropWhile_cons_of_neg (by decide)]
  rw [← hrev, List.reverse_reverse]



/-- Counterexample to C8 as stated: the claim "a run of consecutive non-word
characters yields a single separator, so two adjacent non-word characters
never yield more than one separator" fails — the title `a!!b` slugifies to
`a--b`, because `re.sub(r'[^\w\s-]', '-', ·)` replaces each punctuation
character individually. -/
theorem slug_single_separator_counterexample :
    ¬ (∀ title : String, hasDoubleSep (clean_title_of title).data = false) := by
  intro h
  exact absurd (h "a!!b") (by decide)

/-- C8 (amended): the slug replaces each non-word, non-whitespace,
non-separator character individually by one separator (so k adjacent such
characters yield k separators), collapses each whitespace run to a single
separator, keeps only word characters and separators, and trims leading and
trailing separators. -/
theorem slug_per_character_replacement (title : String) :
    (∀ c ∈ (clean_title_of title).data, isWordChar c = true ∨ c = '-') ∧
    (∀ c : Char, (clean_title_of title).data.head? = some c → (c == '-') = false) ∧
    (∀ c : Char, (clean_title_of title).data.getLast? = some c → (c == '-') = false) ∧
    (∀ k : Nat,
      clean_title_of ⟨'a' :: (List.replicate k '!' ++ ['b'])⟩ =
        ⟨'a' :: (List.replicate k '-' ++ ['b'])⟩) := by
  refine ⟨?_, ?_, ?_, ?_⟩
  · intro c hc
    have h1 := mem_stripDashes _ _ hc
    rcases mem_collapseWsGo c _ false h1 with h2 | ⟨h2, h3⟩
    · exact Or.inr h2
    · rcases List.mem_map.mp h2 with ⟨d, _, hde⟩
      rcases punctToDash_cases d with h4 | h4 | h4
      · right
        rw [← hde, h4]
      · left
        rw [← hde]
        exact h4
      · rw [hde] at h4
        rw [h4] at h3
        cases h3
  · intro c hc
    exact stripDashes_head _ c hc
  · intro c hc
    exact stripDashes_getLast _ c hc
  · intro k
    show (⟨stripDashes (collapseWsGo false
        (('a' :: (List.replicate k '!' ++ ['b'])).map punctToDash))⟩ : String) = _
    have e1 : punctToDash 'a' = 'a' := by decide
    have e2 : punctToDash '!' = '-' := by decide
    have e3 : punctToDash 'b' = 'b' := by decide
    have hmap : ('a' :: (List.replicate k '!' ++ ['b'])).map punctToDash =
        'a' :: (List.replicate k '-' ++ ['b']) := by
      simp [List.map_replicate, e1, e2, e3]
    rw [hmap]
    have hns : ∀ c ∈ 'a' :: (List.replicate k '-' ++ ['b']), isSpaceChar c = false := by
      intro c hc
      rcases List.mem_cons.mp hc with rfl | hc2
      · decide
      · rcases List.mem_append.mp hc2 with hc3 | hc3
        · rw [List.eq_of_mem_replicate hc3]
          decide
        · rcases List.mem_singleton.mp hc3 with rfl
          decide
    rw [collapseWsGo_no_space _ hns false, stripDashes_sandwich]

/-- Witness for C8 amended: for the title `a!!b` the slug is `a--b` — it
consists of word characters and separators, neither starts nor ends with a
separator, and the two adjacent `!` yield exactly two separators. -/
theorem slug_per_character_replacement_witness :
    ('-' ∈ (clean_title_of "a!!b").data) ∧
    (isWordChar '-' = true ∨ '-' = '-') ∧
    ((clean_title_of "a!!b").data.head? = some 'a') ∧
    (('a' == '-') = false) ∧
    ((clean_title_of "a!!b").data.getLast? = some 'b') ∧
    (('b' == '-') = false) ∧
    clean_title_of ⟨'a' :: (List.replicate 2 '!' ++ ['b'])⟩ =
      ⟨'a' :: (List.replicate 2 '-' ++ ['b'])⟩ :=
  ⟨by decide,
   (slug_per_character_replacement "a!!b").1 '-' (by decide),
   by decide,
   (slug_per_character_replacement "a!!b").2.1 'a' (by decide),
   by decide,
   (slug_per_character_replacement "a!!b").2.2.1 'b' (by decide),
   (slug_per_character_replacement "a!!b").2.2.2 2⟩



theorem processArticles_cons (hashFn : String → String)
    (cleanOp mdOp : String → Except String String) (now : String)
    (fs : Nat → Bool × Bool) (n : Nat) (article : Article) (rest : List Article)
    (st : ScrapeState) :
    processArticles hashFn cleanOp mdOp now fs n (article :: rest) st =
      processArticles hashFn cleanOp mdOp now fs (n + 1) rest
        (stepArticle hashFn cleanOp mdOp now (fs n).1 (fs n).2 article st) := rfl

theorem stepArticle_tracked (hashFn : String → String)
    (cleanOp mdOp : String → Except String String) (now : String)
    (mdOk metaOk : Bool) (article : Article) (st : ScrapeState) :
    (stepArticle hashFn cleanOp mdOp now mdOk metaOk article st).tracked =
      (save_article_as_markdown hashFn cleanOp mdOp now mdOk metaOk article
        st.tracked).tracked := by
  unfold stepArticle
  dsimp only
  split
  · split <;> rfl
  · rfl

theorem stepArticle_of_skip (hashFn : String → String)
    (cleanOp mdOp : String → Except String String) (now : String)
    (mdOk metaOk : Bool) (article : Article) (st : ScrapeState)
    (hsave : save_article_as_markdown hashFn cleanOp mdOp now mdOk metaOk article
        st.tracked = ⟨false, .skipped, none, st.tracked, []⟩) :
    stepArticle hashFn cleanOp mdOp now mdOk metaOk article st =
      { st with skipped_count := st.skipped_count + 1 } := by
  unfold stepArticle
  rw [hsave]
  simp

theorem save_tracked_cases (hashFn : String → String)
    (cleanOp mdOp : String → Except String String) (now : String)
    (mdOk metaOk : Bool) (article : Article) (tracked : Ledger) :
    (save_article_as_markdown hashFn cleanOp mdOp now mdOk metaOk article tracked).tracked
        = tracked ∨
    (∃ i, article.id = some i ∧
      (save_article_as_markdown hashFn cleanOp mdOp now mdOk metaOk article
          tracked).tracked =
        ledgerInsert tracked (toString i)
          ⟨some (clean_title_of (article.title.getD "No Title")),
           hashFn (article.body.getD ""), article.updated_at.getD now⟩) := by
  cases hid : article.id with
  | none =>
    left
    rw [save_of_id_none hashFn cleanOp mdOp now mdOk metaOk article tracked hid]
  | some i =>
    by_cases hc : classify (hashFn (article.body.getD "")) (toString i) tracked = .skipped
    · left
      rw [save_of_skipped hashFn cleanOp mdOp now mdOk metaOk article tracked i hid hc]
    · cases hmd : mdOk with
      | false =>
        left
        exact (save_of_write_failure hashFn cleanOp mdOp now false metaOk article tracked
          i hid hc (Or.inl rfl)).2.2.2
      | true =>
        cases hmeta : metaOk with
        | false =>
          left
          exact (save_of_write_failure hashFn cleanOp mdOp now true false article tracked
            i hid hc (Or.inr rfl)).2.2.2
        | true =>
          right
          refine ⟨i, rfl, ?_⟩
          rw [save_of_write_success hashFn cleanOp mdOp now article tracked i hid hc]

theorem save_preserves_other_keys (hashFn : String → String)
    (cleanOp mdOp : String → Except String String) (now : String)
    (mdOk metaOk : Bool) (article : Article) (tracked : Ledger) (k : String)
    (hk : ∀ i, article.id = some i → toString i ≠ k) :
    ledgerFind (save_article_as_markdown hashFn cleanOp mdOp now mdOk metaOk article
      tracked).tracked k = ledgerFind tracked k := by
  rcases save_tracked_cases hashFn cleanOp mdOp now mdOk metaOk article tracked with
    h | ⟨i, hid, h⟩
  · rw [h]
  · rw [h]
    exact ledgerFind_ledgerInsert_ne tracked (toString i) k _ (hk i hid)

theorem save_establishes_hash (hashFn : String → String)
    (cleanOp mdOp : String → Except String String) (now : String)
    (article : Article) (tracked : Ledger) (i : Nat) (hid : article.id = some i) :
    ∃ entry, ledgerFind (save_article_as_markdown hashFn cleanOp mdOp now true true
        article tracked).tracked (toString i) = some entry ∧
      entry.content_hash = hashFn (article.body.getD "") := by
  by_cases hc : classify (hashFn (article.body.getD "")) (toString i) tracked = .skipped
  · have hcl := hc
    rw [save_of_skipped hashFn cleanOp mdOp now true true article tracked i hid hc]
    unfold classify at hcl
    cases hf : ledgerFind tracked (toString i) with
    | none =>
      rw [hf] at hcl
      dsimp only at hcl
      simp at hcl
    | some entry =>
      rw [hf] at hcl
      dsimp only at hcl
      by_cases he : entry.content_hash = hashFn (article.body.getD "")
      · exact ⟨entry, rfl, he⟩
      · rw [if_pos he] at hcl
        simp at hcl
  · rw [save_of_write_success hashFn cleanOp mdOp now article tracked i hid hc]
    exact ⟨_, ledgerFind_ledgerInsert_self tracked (toString i) _, rfl⟩



theorem processArticles_preserves_key (hashFn : String → String)
    (cleanOp mdOp : String → Except String String) (now : String)
    (fs : Nat → Bool × Bool) (k : String) :
    ∀ (articles : List Article) (n : Nat) (st : ScrapeState),
      (∀ a ∈ articles, ∀ i : Nat, a.id = some i → toString i ≠ k) →
      ledgerFind (processArticles hashFn cleanOp mdOp now fs n articles st).tracked k =
        ledgerFind st.tracked k := by
  intro articles
  induction articles with
  | nil => intro n st _; rfl
  | cons a rest ih =>
    intro n st h
    rw [processArticles_cons]
    rw [ih (n + 1) _ (fun b hb => h b (List.mem_cons_of_mem a hb))]
    rw [stepArticle_tracked]
    exact save_preserves_other_keys hashFn cleanOp mdOp now (fs n).1 (fs n).2 a st.tracked k
      (fun i hid => h a (List.mem_cons_self a rest) i hid)

theorem processArticles_all_success_hash (hashFn : String → String)
    (cleanOp mdOp : String → Except String String) (now : String)
    (fs : Nat → Bool × Bool) (hfs : ∀ n, fs n = (true, true)) :
    ∀ (articles : List Article) (n : Nat) (st : ScrapeState),
      (articles.filterMap (fun a => a.id.map toString)).Nodup →
      ∀ a ∈ articles, ∀ i : Nat, a.id = some i →
        ∃ entry,
          ledgerFind (processArticles hashFn cleanOp mdOp now fs n articles st).tracked
            (toString i) = some entry ∧
          entry.content_hash = hashFn (a.body.getD "") := by
  intro articles
  induction articles with
  | nil => intro n st _ a ha; cases ha
  | cons a0 rest ih =>
    intro n st hnodup a ha i hid
    rcases List.mem_cons.mp ha with rfl | hmem
    · rw [processArticles_cons]
      have hfm : (a :: rest).filterMap (fun b => b.id.map toString) =
          toString i :: rest.filterMap (fun b => b.id.map toString) := by
        simp [List.filterMap_cons, hid]
      rw [hfm] at hnodup
      have hnotin := (List.nodup_cons.mp hnodup).1
      have hdiff : ∀ b ∈ rest, ∀ j : Nat, b.id = some j → toString j ≠ toString i := by
        intro b hb j hj he
        apply hnotin
        rw [← he]
        exact List.mem_filterMap.mpr ⟨b, hb, by rw [hj]; rfl⟩
      rw [processArticles_preserves_key hashFn cleanOp mdOp now fs (toString i) rest (n + 1)
        _ hdiff]
      rw [stepArticle_tracked]
      have hf1 : (fs n).1 = true := by rw [hfs n]
      have hf2 : (fs n).2 = true := by rw [hfs n]
      rw [hf1, hf2]
      exact save_establishes_hash hashFn cleanOp mdOp now a st.tracked i hid
    · rw [processArticles_cons]
      have hsub : (rest.filterMap (fun b => b.id.map toString)).Nodup := by
        refine List.Nodup.sublist ?_ hnodup
        exact List.Sublist.filterMap _ (List.sublist_cons_self a0 rest)
      exact ih (n + 1) _ hsub a hmem i hid

theorem processArticles_all_skip (hashFn : String → String)
    (cleanOp mdOp : String → Except String String) (now : String)
    (fs : Nat → Bool × Bool) :
    ∀ (articles : List Article) (n : Nat) (st : ScrapeState),
      (∀ a ∈ articles, ∀ i : Nat, a.id = some i →
        ∃ entry, ledgerFind st.tracked (toString i) = some entry ∧
          entry.content_hash = hashFn (a.body.getD "")) →
      processArticles hashFn cleanOp mdOp now fs n articles st =
        { st with skipped_count := st.skipped_count + articles.length } := by
  intro articles
  induction articles with
  | nil => intro n st _; simp [processArticles]
  | cons a rest ih =>
    intro n st h
    have hsv : save_article_as_markdown hashFn cleanOp mdOp now (fs n).1 (fs n).2 a
        st.tracked = ⟨false, .skipped, none, st.tracked, []⟩ := by
      cases hid : a.id with
      | none =>
        exact save_of_id_none hashFn cleanOp mdOp now (fs n).1 (fs n).2 a st.tracked hid
      | some i =>
        obtain ⟨entry, hfind, hhash⟩ := h a (List.mem_cons_self a rest) i hid
        have hcl : classify (hashFn (a.body.getD "")) (toString i) st.tracked
            = .skipped := by
          unfold classify
          rw [hfind]
          dsimp only
          rw [if_neg (by simp [hhash])]
        exact save_of_skipped hashFn cleanOp mdOp now (fs n).1 (fs n).2 a st.tracked i
          hid hcl
    rw [processArticles_cons]
    rw [stepArticle_of_skip hashFn cleanOp mdOp now (fs n).1 (fs n).2 a st hsv]
    rw [ih (n + 1) { st with skipped_count := st.skipped_count + 1 }
      (fun b hb j hj => h b (List.mem_cons_of_mem a hb) j hj)]
    have harith : st.skipped_count + 1 + rest.length =
        st.skipped_count + (a :: rest).length := by
      simp only [List.length_cons]
      omega
    rw [harith]

theorem upload_of_no_articles (ensure : Except Unit String) (fileExists : String → Bool)
    (uploadOp : String → List String → Except Unit Nat) (tracked : Ledger)
    (batch_size : Nat) :
    upload_delta_articles_in_batches ensure fileExists uploadOp ⟨[], []⟩ tracked
      batch_size = emptyRun := by
  simp [upload_delta_articles_in_batches]



/-- C9: running the pipeline twice over the same fetched articles (with
distinct ids, the ledger's join key) with all file writes succeeding in the
first run is idempotent: the second run skips every document (its whole state
is the initial state plus `skipped_count = number of articles` — so zero new,
zero updated, an empty classification set, no file write and an unchanged
ledger), and the upload stage of the second run is the zero run. -/
theorem second_run_idempotent (hashFn : String → String)
    (cleanOp mdOp : String → Except String String) (now1 now2 : String)
    (fs1 fs2 : Nat → Bool × Bool) (articles : List Article) (tracked0 : Ledger)
    (ensure : Except Unit String) (fileExists : String → Bool)
    (uploadOp : String → List String → Except Unit Nat) (batch_size : Nat)
    (hfs1 : ∀ n, fs1 n = (true, true))
    (hnodup : (articles.filterMap (fun a => a.id.map toString)).Nodup) :
    scraperRun hashFn cleanOp mdOp now2 fs2 articles
        (scraperRun hashFn cleanOp mdOp now1 fs1 articles tracked0).tracked =
      { initState
          ((scraperRun hashFn cleanOp mdOp now1 fs1 articles tracked0).tracked) with
          skipped_count := articles.length } ∧
    upload_delta_articles_in_batches ensure fileExists uploadOp
      (scraperRun hashFn cleanOp mdOp now2 fs2 articles
        (scraperRun hashFn cleanOp mdOp now1 fs1 articles tracked0).tracked).categorized
      (scraperRun hashFn cleanOp mdOp now2 fs2 articles
        (scraperRun hashFn cleanOp mdOp now1 fs1 articles tracked0).tracked).tracked
      batch_size = emptyRun := by
  have hkey : ∀ a ∈ articles, ∀ i : Nat, a.id = some i →
      ∃ entry, ledgerFind
          (scraperRun hashFn cleanOp mdOp now1 fs1 articles tracked0).tracked
          (toString i) = some entry ∧
        entry.content_hash = hashFn (a.body.getD "") :=
    fun a ha i hid => processArticles_all_success_hash hashFn cleanOp mdOp now1 fs1 hfs1
      articles 0 (initState tracked0) hnodup a ha i hid
  have hrun2 := processArticles_all_skip hashFn cleanOp mdOp now2 fs2 articles 0
    (initState (scraperRun hashFn cleanOp mdOp now1 fs1 articles tracked0).tracked)
    (fun a ha i hid => hkey a ha i hid)
  have heq : scraperRun hashFn cleanOp mdOp now2 fs2 articles
        (scraperRun hashFn cleanOp mdOp now1 fs1 articles tracked0).tracked =
      { initState
          ((scraperRun hashFn cleanOp mdOp now1 fs1 articles tracked0).tracked) with
          skipped_count := articles.length } :=
    hrun2.trans (by simp [initState])
  refine ⟨heq, ?_⟩
  rw [heq]
  exact upload_of_no_articles ensure fileExists uploadOp _ batch_size

/-- Witness for C9: two distinct articles run from an empty ledger; the second
run's classification set yields the zero upload run. -/
theorem second_run_idempotent_witness :
    (∀ n : Nat, (fun _ : Nat => (true, true)) n = ((true : Bool), (true : Bool))) ∧
    (([⟨some 1, some "T1", some "b1", some "u1", some "m1"⟩,
       ⟨some 2, some "T2", some "b2", some "u2", some "m2"⟩] :
        List Article).filterMap (fun a => a.id.map toString)).Nodup ∧
    upload_delta_articles_in_batches (.ok "vs") (fun _ => true) (fun _ _ => .ok 1)
      (scraperRun (fun s => s) (fun s => .ok s) (fun s => .ok s) "t2"
        (fun _ => (true, true))
        [⟨some 1, some "T1", some "b1", some "u1", some "m1"⟩,
         ⟨some 2, some "T2", some "b2", some "u2", some "m2"⟩]
        (scraperRun (fun s => s) (fun s => .ok s) (fun s => .ok s) "t1"
          (fun _ => (true, true))
          [⟨some 1, some "T1", some "b1", some "u1", some "m1"⟩,
           ⟨some 2, some "T2", some "b2", some "u2", some "m2"⟩] []).tracked).categorized
      (scraperRun (fun s => s) (fun s => .ok s) (fun s => .ok s) "t2"
        (fun _ => (true, true))
        [⟨some 1, some "T1", some "b1", some "u1", some "m1"⟩,
         ⟨some 2, some "T2", some "b2", some "u2", some "m2"⟩]
        (scraperRun (fun s => s) (fun s => .ok s) (fun s => .ok s) "t1"
          (fun _ => (true, true))
          [⟨some 1, some "T1", some "b1", some "u1", some "m1"⟩,
           ⟨some 2, some "T2", some "b2", some "u2", some "m2"⟩] []).tracked).tracked
      10 = emptyRun :=
  ⟨fun _ => rfl, by decide,
   (second_run_idempotent (fun s => s) (fun s => .ok s) (fun s => .ok s) "t1" "t2"
     (fun _ => (true, true)) (fun _ => (true, true))
     [⟨some 1, some "T1", some "b1", some "u1", some "m1"⟩,
      ⟨some 2, some "T2", some "b2", some "u2", some "m2"⟩] []
     (.ok "vs") (fun _ => true) (fun _ _ => .ok 1) 10
     (fun _ => rfl) (by decide)).2⟩


end ContentPipeline
